import Mathlib

/-!
# Verification of the IRCTC railway seat-booking core

A shallow embedding of the seat-allocation core of the repository:

* the `trains` / `bookings` schema and the `book_seat` stored procedure from
  `supabase/migrations/20250704034457_graceful_firefly.sql`;
* the cancellation route `DELETE /bookings/:id` and the booking-creation guard
  `POST /bookings` from `backend/routes/bookings.js`;
* the search route `GET /trains/search` and the admin update route
  `PUT /trains/:id` from `backend/routes/trains.js`.

UUIDs are modelled as natural-number identifiers, SQL `integer` columns as
`Int`, timestamps as `Nat`.  The per-train `FOR UPDATE` row lock serializes
concurrent `book_seat` calls for the same train, so a concurrent execution is
modelled as an arbitrary sequential interleaving of atomic operations.
PL/pgSQL `EXCEPTION WHEN OTHERS` rolls every effect of the block back, so a
storage fault anywhere inside the block is modelled by an injected fault
(`fault : Option String`, the would-be `SQLERRM` text) that yields the
handler's failure result and leaves the database untouched.
-/

set_option autoImplicit false

namespace Irctc

/-- A row of the `trains` table (schema columns relevant to the core). -/
structure TrainRow where
  id : Nat
  train_number : String
  train_name : String
  source : String
  destination : String
  total_seats : Int
  available_seats : Int
  departure_time : Nat
  arrival_time : Nat
  journey_date : Nat
  price : Int
  updated_at : Nat
  deriving Repr, DecidableEq

/-- A row of the `bookings` table. -/
structure Booking where
  id : Nat
  user_id : Nat
  train_id : Nat
  seat_number : Int
  booking_status : String
  passenger_name : String
  passenger_age : Int
  passenger_gender : String
  deriving Repr, DecidableEq

/-- The mutable database state: the two tables plus a counter standing in for
`gen_random_uuid()` when a fresh booking id is needed. -/
structure DB where
  trains : List TrainRow
  bookings : List Booking
  nextBookingId : Nat
  deriving Repr, DecidableEq

/-- `SELECT * FROM trains WHERE id = p_train_id` (at most one row: `id` is the
primary key). -/
def findTrain (db : DB) (tid : Nat) : Option TrainRow :=
  db.trains.find? (fun t => t.id == tid)

/-- The bookings rows of one train: `SELECT ... FROM bookings WHERE train_id = tid`. -/
def bookingsFor (db : DB) (tid : Nat) : List Booking :=
  db.bookings.filter (fun b => b.train_id == tid)

/-- `SELECT COALESCE(MAX(seat_number), 0) FROM bookings WHERE train_id = tid`. -/
def maxSeat (db : DB) (tid : Nat) : Int :=
  (bookingsFor db tid).foldl (fun m b => max m b.seat_number) 0

/-- The JSON object `book_seat` returns via `json_build_object`. -/
structure BookResult where
  success : Bool
  message : String
  booking_id : Option Nat
  seat_number : Option Int
  deriving Repr, DecidableEq

/-- The `SQLERRM` text of the foreign-key violation raised when a booking row
referencing a non-existent train is inserted (`bookings.train_id REFERENCES
trains(id)`). -/
def fkViolationMsg : String :=
  "insert or update on table bookings violates foreign key constraint bookings_train_id_fkey"

/-- The row the allocator's INSERT produces: a fresh id, the supplied
passenger details, the computed seat number, and the column default
`booking_status = 'confirmed'`. -/
def newBooking (db : DB) (p_train_id p_user_id : Nat) (p_passenger_name : String)
    (p_passenger_age : Int) (p_passenger_gender : String) : Booking :=
  { id := db.nextBookingId, user_id := p_user_id, train_id := p_train_id,
    seat_number := maxSeat db p_train_id + 1, booking_status := "confirmed",
    passenger_name := p_passenger_name, passenger_age := p_passenger_age,
    passenger_gender := p_passenger_gender }

/-- The stored procedure `book_seat` from the migration file.

The PL/pgSQL body does `SELECT * INTO v_train_record ... FOR UPDATE` without
`STRICT`: when no train matches, `v_train_record` is all-NULL, the test
`v_train_record.available_seats <= 0` evaluates to NULL (not true), the body
falls through to the `INSERT`, which violates the `bookings.train_id` foreign
key, and the `EXCEPTION WHEN OTHERS` handler returns the failure object with
the rolled-back state.  `fault = some e` injects a storage error (with
`SQLERRM = e`) into steps 3 to 5 (seat computation, insert, decrement); the
exception handler likewise rolls the whole block back. -/
def book_seat (fault : Option String) (now : Nat) (db : DB)
    (p_train_id p_user_id : Nat) (p_passenger_name : String)
    (p_passenger_age : Int) (p_passenger_gender : String) :
    BookResult × DB :=
  match findTrain db p_train_id with
  | none =>
      (⟨false, "Booking failed: " ++ fkViolationMsg, none, none⟩, db)
  | some tr =>
      if tr.available_seats ≤ 0 then
        (⟨false, "No seats available", none, none⟩, db)
      else
        match fault with
        | some e => (⟨false, "Booking failed: " ++ e, none, none⟩, db)
        | none =>
            let v_seat_number : Int := maxSeat db p_train_id + 1
            let v_booking_id : Nat := db.nextBookingId
            let trains' := db.trains.map (fun t =>
              if t.id == p_train_id then
                { t with available_seats := t.available_seats - 1, updated_at := now }
              else t)
            (⟨true, "Booking successful", some v_booking_id, some v_seat_number⟩,
             { trains := trains',
               bookings :=
                 newBooking db p_train_id p_user_id p_passenger_name
                   p_passenger_age p_passenger_gender :: db.bookings,
               nextBookingId := db.nextBookingId + 1 })

/-- The JSON body of an HTTP response, as the routes build it: a status code
and a message (the `error`/`message` field). -/
structure HttpResult where
  status : Nat
  message : String
  deriving Repr, DecidableEq

/-- The cancellation route `DELETE /bookings/:id` from `backend/routes/bookings.js`.

The handler first fetches the booking by `(id, user_id)` (404 if absent), then
issues a `delete` call, then — as a separate, non-transactional call — an
update incrementing the owning train's `available_seats`.  A failing delete
gives a 500 with nothing changed; a failing update is only logged
(`console.error`) and the handler still responds with success, the booking
already deleted.  `delFault` / `updFault` model storage errors of the two
calls. -/
def cancelBooking (delFault updFault : Bool) (db : DB) (bid uid : Nat) :
    HttpResult × DB :=
  match db.bookings.find? (fun b => b.id == bid && b.user_id == uid) with
  | none => (⟨404, "Booking not found"⟩, db)
  | some booking =>
      if delFault then
        (⟨500, "Failed to delete booking"⟩, db)
      else
        let db1 : DB :=
          { db with bookings :=
              db.bookings.filter (fun b => !(b.id == bid && b.user_id == uid)) }
        if updFault then
          (⟨200, "Booking cancelled successfully"⟩, db1)
        else
          let db2 : DB :=
            { db1 with trains := db1.trains.map (fun t =>
                if t.id == booking.train_id then
                  { t with available_seats := t.available_seats + 1 }
                else t) }
          (⟨200, "Booking cancelled successfully"⟩, db2)

/-- `GET /bookings/:id`: fetch one booking by `(id, user_id)`; 404 when the
`.single()` call matches nothing. -/
def getBooking (db : DB) (bid uid : Nat) : Option Booking :=
  db.bookings.find? (fun b => b.id == bid && b.user_id == uid)

/-- The `updates` object an admin sends to `PUT /trains/:id`: the handler
passes `req.body` through unchanged, so every column is writable. -/
structure TrainUpdates where
  train_name : Option String := none
  source : Option String := none
  destination : Option String := none
  total_seats : Option Int := none
  available_seats : Option Int := none
  departure_time : Option Nat := none
  arrival_time : Option Nat := none
  journey_date : Option Nat := none
  price : Option Int := none
  deriving Repr

/-- Apply one field update when present. -/
def applyUpdates (u : TrainUpdates) (t : TrainRow) : TrainRow :=
  { t with
    train_name := u.train_name.getD t.train_name,
    source := u.source.getD t.source,
    destination := u.destination.getD t.destination,
    total_seats := u.total_seats.getD t.total_seats,
    available_seats := u.available_seats.getD t.available_seats,
    departure_time := u.departure_time.getD t.departure_time,
    arrival_time := u.arrival_time.getD t.arrival_time,
    journey_date := u.journey_date.getD t.journey_date,
    price := u.price.getD t.price }

/-- The admin route `PUT /trains/:id` from `backend/routes/trains.js`: applies
`req.body` to the matching train row with no validation of the values. -/
def updateTrain (db : DB) (tid : Nat) (u : TrainUpdates) : DB :=
  { db with trains := db.trains.map (fun t =>
      if t.id == tid then applyUpdates u t else t) }

/-- `pat` is a prefix of `hay` (character lists). -/
def prefixChars : List Char → List Char → Bool
  | [], _ => true
  | _ :: _, [] => false
  | p :: ps, h :: hs => (p == h) && prefixChars ps hs

/-- `pat` occurs as a contiguous substring of `hay`. -/
def hasSubstr (pat : List Char) : List Char → Bool
  | [] => pat.isEmpty
  | c :: t => prefixChars pat (c :: t) || hasSubstr pat t

/-- ASCII lowering of one character (the case folding ILIKE applies). -/
def lowerChar (c : Char) : Char :=
  if c.isUpper then Char.ofNat (c.toNat + 32) else c

/-- The semantics of `.ilike(col, \x25pat\x25)`: `pat` occurs in `hay`
case-insensitively. -/
def ciContains (hay pat : String) : Bool :=
  hasSubstr (pat.toList.map lowerChar) (hay.toList.map lowerChar)

/-- Insert a train into a list ordered by `departure_time` (ascending). -/
def insertByDep (t : TrainRow) : List TrainRow → List TrainRow
  | [] => [t]
  | u :: us =>
      if t.departure_time ≤ u.departure_time then t :: u :: us
      else u :: insertByDep t us

/-- `.order('departure_time')` (default ascending), as a stable sort. -/
def sortByDep : List TrainRow → List TrainRow
  | [] => []
  | t :: ts => insertByDep t (sortByDep ts)

/-- The query string of `GET /trains/search`. -/
structure SearchQuery where
  source : String
  destination : String
  date : Option Nat
  deriving Repr

/-- The search route `GET /trains/search` from `backend/routes/trains.js`:
subqueries `ilike` on source and destination, `gt('available_seats', 0)`,
optional `eq('journey_date', date)`, ordered by `departure_time`; 400 when
source or destination is missing/empty (JS-falsy). -/
def searchTrains (db : DB) (q : SearchQuery) :
    Except HttpResult (List TrainRow) :=
  if q.source.isEmpty || q.destination.isEmpty then
    .error ⟨400, "Source and destination are required"⟩
  else
    let base := db.trains.filter (fun t =>
      ciContains t.source q.source && ciContains t.destination q.destination &&
        decide (0 < t.available_seats))
    let filtered :=
      match q.date with
      | some d => base.filter (fun t => t.journey_date == d)
      | none => base
    .ok (sortByDep filtered)

/-- A JavaScript runtime value as it reaches the route handler from
`req.body` (the shapes relevant to the booking guard). -/
inductive JSVal where
  | vstr (s : String)
  | vnum (n : Int)
  | vnull
  | vundef
  deriving Repr, DecidableEq

/-- JavaScript falsiness of such a value: `undefined`, `null`, `0`, and the
empty string are falsy. -/
def falsy : JSVal → Bool
  | .vstr s => s.isEmpty
  | .vnum n => n == 0
  | .vnull => true
  | .vundef => true

/-- What the `POST /bookings` handler does with the body before any database
work: reject, or hand the fields to the `book_seat` RPC. -/
inductive GateOutcome where
  | rejected (status : Nat) (error : String)
  | allocatorInvoked (train_id name age gender : JSVal)
  deriving Repr, DecidableEq

/-- The validation guard of `POST /bookings` in `backend/routes/bookings.js`:
`if (!train_id || !passenger_name || !passenger_age || !passenger_gender)`
return 400, else invoke the allocator RPC. -/
def postBookingGate (train_id passenger_name passenger_age passenger_gender :
    JSVal) : GateOutcome :=
  if falsy train_id || falsy passenger_name || falsy passenger_age ||
      falsy passenger_gender then
    .rejected 400 "All passenger details are required"
  else
    .allocatorInvoked train_id passenger_name passenger_age passenger_gender

/-!
## Operations and reachability

The operations that touch the `(bookings, available_seats)` pair through the
allocator and its inverse.  Faults may be injected into any of them, as in the
code: `book_seat` rolls back wholesale on a fault, the cancellation route does
not couple its two calls.
-/

/-- One invocation of the allocator or of the cancellation route. -/
inductive Op where
  | book (fault : Option String) (now : Nat) (tid uid : Nat)
      (name : String) (age : Int) (gender : String)
  | cancel (delFault updFault : Bool) (bid uid : Nat)
  deriving Repr

/-- Execute one operation (discarding the HTTP/JSON result). -/
def execOp (db : DB) : Op → DB
  | .book fault now tid uid name age gender =>
      (book_seat fault now db tid uid name age gender).2
  | .cancel df uf bid uid => (cancelBooking df uf db bid uid).2

/-- Execute a sequence of operations. -/
def execOps (db : DB) : List Op → DB
  | [] => db
  | op :: ops => execOps (execOp db op) ops

/-- A freshly created train (admin creation path sets
`available_seats = total_seats`). -/
def InitTrain (t : TrainRow) : Prop :=
  t.available_seats = t.total_seats ∧ 0 ≤ t.total_seats

instance : DecidablePred InitTrain := fun t => by
  unfold InitTrain; infer_instance

/-- An initial database: empty booking table, distinct train ids, every train
fresh. -/
def InitDB (db : DB) : Prop :=
  db.bookings = [] ∧ (db.trains.map TrainRow.id).Nodup ∧
    ∀ t ∈ db.trains, InitTrain t

instance : DecidablePred InitDB := fun db => by
  unfold InitDB; infer_instance

/-- States reachable from an initial database through the allocator and the
cancellation route. -/
def Reachable (db : DB) : Prop :=
  ∃ db0 ops, InitDB db0 ∧ db = execOps db0 ops

/-- The per-train core invariant: live seat numbers pairwise distinct, and the
booking count plus the available-seat counter bounded by capacity, the counter
nonnegative. -/
def GoodTrain (db : DB) (t : TrainRow) : Prop :=
  ((bookingsFor db t.id).map Booking.seat_number).Nodup ∧
    ((bookingsFor db t.id).length : Int) + t.available_seats ≤ t.total_seats ∧
    0 ≤ t.available_seats

/-- The global invariant: distinct train ids and every train good. -/
def Inv (db : DB) : Prop :=
  (db.trains.map TrainRow.id).Nodup ∧ ∀ t ∈ db.trains, GoodTrain db t

/-!
## Helper lemmas
-/

theorem foldlMax_init_le (l : List Booking) (init : Int) :
    init ≤ l.foldl (fun m b => max m b.seat_number) init := by
  induction l generalizing init with
  | nil => exact le_refl _
  | cons b t ih =>
      simp only [List.foldl_cons]
      exact le_trans (le_max_left _ _) (ih (max init b.seat_number))

theorem seat_le_foldlMax (l : List Booking) (b : Booking) (init : Int) :
    b ∈ l → b.seat_number ≤ l.foldl (fun m x => max m x.seat_number) init := by
  induction l generalizing init with
  | nil => intro h; cases h
  | cons c t ih =>
      intro hb
      simp only [List.foldl_cons]
      rcases List.mem_cons.mp hb with h | h
      · subst h
        exact le_trans (le_max_right init _) (foldlMax_init_le t _)
      · exact ih (max init c.seat_number) h

theorem mem_bookingsFor {db : DB} {tid : Nat} {b : Booking}
    (h : b ∈ bookingsFor db tid) : b ∈ db.bookings ∧ b.train_id = tid := by
  have h' := List.mem_filter.mp h
  exact ⟨h'.1, by simpa using h'.2⟩

theorem seat_le_maxSeat {db : DB} {tid : Nat} {b : Booking}
    (h : b ∈ bookingsFor db tid) : b.seat_number ≤ maxSeat db tid :=
  seat_le_foldlMax _ b 0 h

/-- The seat number the allocator computes is fresh: it exceeds every live
seat number of the train. -/
theorem maxSeat_succ_fresh {db : DB} {tid : Nat} {b : Booking}
    (h : b ∈ bookingsFor db tid) : b.seat_number ≠ maxSeat db tid + 1 := by
  have := seat_le_maxSeat h
  omega

theorem bookingsFor_only_bookings {db db' : DB}
    (h : db.bookings = db'.bookings) (x : Nat) :
    bookingsFor db x = bookingsFor db' x := by
  simp [bookingsFor, h]

theorem maxSeat_only_bookings {db db' : DB}
    (h : db.bookings = db'.bookings) (x : Nat) : maxSeat db x = maxSeat db' x := by
  simp [maxSeat, bookingsFor_only_bookings h]

theorem bookingsFor_of_cons {db1 db : DB} {nb : Booking}
    (hb : db1.bookings = nb :: db.bookings) (x : Nat) :
    bookingsFor db1 x =
      if nb.train_id == x then nb :: bookingsFor db x else bookingsFor db x := by
  simp only [bookingsFor, hb, List.filter_cons]

theorem bookingsFor_of_filter {db1 db : DB} (p : Booking → Bool)
    (hb : db1.bookings = db.bookings.filter p) (x : Nat) :
    bookingsFor db1 x = (bookingsFor db x).filter p := by
  simp only [bookingsFor, hb, List.filter_filter]
  exact List.filter_congr (fun b _ => Bool.and_comm _ _)

theorem map_id_of_pointwise (l : List TrainRow) (f : TrainRow → TrainRow)
    (hf : ∀ t, (f t).id = t.id) :
    (l.map f).map TrainRow.id = l.map TrainRow.id := by
  rw [List.map_map]
  exact List.map_congr_left (fun t _ => hf t)

theorem eq_of_mem_of_nodup_ids {l : List TrainRow}
    (hn : (l.map TrainRow.id).Nodup) {a b : TrainRow}
    (ha : a ∈ l) (hb : b ∈ l) (hid : a.id = b.id) : a = b :=
  List.inj_on_of_nodup_map hn ha hb hid

theorem length_filter_lt_of_mem_not {α : Type} (p : α → Bool) (l : List α)
    (b : α) (hb : b ∈ l) (hpb : p b = false) :
    (l.filter p).length < l.length := by
  induction l with
  | nil => cases hb
  | cons c t ih =>
      rcases List.mem_cons.mp hb with h | h
      · subst h
        simp only [List.filter_cons, hpb, Bool.false_eq_true, if_false,
          List.length_cons]
        have := List.length_filter_le p t
        omega
      · by_cases hc : p c
        · simp only [List.filter_cons, hc, if_pos, List.length_cons]
          have := ih h
          omega
        · simp only [List.filter_cons, hc, if_neg, List.length_cons]
          have := ih h
          simp only [Bool.false_eq_true, if_false]
          omega

/-!
## Invariant preservation
-/

/-- A successful or failed allocation preserves the core invariant. -/
theorem inv_book (db : DB) (h : Inv db) (fault : Option String)
    (now tid uid : Nat) (name : String) (age : Int) (gender : String) :
    Inv (book_seat fault now db tid uid name age gender).2 := by
  unfold book_seat
  split
  · exact h
  next tr heq =>
    split
    · exact h
    next hav =>
      split
      · exact h
      next =>
        dsimp only
        have htr_mem : tr ∈ db.trains := by
          unfold findTrain at heq
          exact List.mem_of_find?_eq_some heq
        have htr_id : tr.id = tid := by
          unfold findTrain at heq
          have := List.find?_some heq
          simpa using this
        constructor
        · rw [map_id_of_pointwise]
          · exact h.1
          · intro t
            by_cases ht : t.id == tid <;> simp [ht]
        · intro t' ht'
          rw [List.mem_map] at ht'
          obtain ⟨t, ht, rfl⟩ := ht'
          by_cases hid : t.id == tid
          · have hteq : t = tr := by
              apply eq_of_mem_of_nodup_ids h.1 ht htr_mem
              rw [htr_id]
              simpa using hid
            subst hteq
            have hg := h.2 t ht
            simp only [hid, if_pos]
            unfold GoodTrain at hg ⊢
            rw [bookingsFor_of_cons rfl]
            simp only [newBooking]
            rw [htr_id] at hg ⊢
            simp only [beq_self_eq_true, if_pos, List.map_cons, List.nodup_cons,
              List.mem_map, List.length_cons]
            refine ⟨⟨?_, hg.1⟩, ?_, ?_⟩
            · rintro ⟨b, hb, hbs⟩
              exact maxSeat_succ_fresh hb hbs
            · have := hg.2.1
              push_cast
              push_cast at this
              omega
            · have hav' : ¬ t.available_seats ≤ 0 := hav
              omega
          · have hg := h.2 t ht
            simp only [hid, if_neg, Bool.false_eq_true]
            unfold GoodTrain at hg ⊢
            rw [bookingsFor_of_cons rfl]
            simp only [newBooking]
            have hne : (tid == t.id) = false := by
              simp only [beq_eq_false_iff_ne]
              intro he
              simp [he] at hid
            simp only [hne, Bool.false_eq_true, if_false]
            exact hg

/-- A good train stays good when the booking table merely shrinks to a
filtered subset (its counter and capacity untouched). -/
theorem goodTrain_of_filter {db1 db : DB} {t : TrainRow} (p : Booking → Bool)
    (hb : db1.bookings = db.bookings.filter p)
    (hg : GoodTrain db t) : GoodTrain db1 t := by
  unfold GoodTrain at hg ⊢
  rw [bookingsFor_of_filter p hb]
  refine ⟨?_, ?_, hg.2.2⟩
  · exact hg.1.sublist ((List.filter_sublist _).map _)
  · have hlen := List.length_filter_le p (bookingsFor db t.id)
    have := hg.2.1
    omega

/-- Cancellation — in all its fault modes — preserves the core invariant. -/
theorem inv_cancel (db : DB) (h : Inv db) (df uf : Bool) (bid uid : Nat) :
    Inv (cancelBooking df uf db bid uid).2 := by
  unfold cancelBooking
  split
  · exact h
  next booking hfind =>
    have hbmem : booking ∈ db.bookings := List.mem_of_find?_eq_some hfind
    have hbp' := List.find?_some hfind
    have hbp : (booking.id == bid && booking.user_id == uid) = true := hbp'
    split
    · exact h
    next =>
      dsimp only
      split
      · exact ⟨h.1, fun t ht => goodTrain_of_filter _ rfl (h.2 t ht)⟩
      next =>
        constructor
        · rw [map_id_of_pointwise]
          · exact h.1
          · intro t
            by_cases ht : t.id == booking.train_id <;> simp [ht]
        · intro t' ht'
          rw [List.mem_map] at ht'
          obtain ⟨t, ht, rfl⟩ := ht'
          by_cases hid : t.id == booking.train_id
          · simp only [hid, if_pos]
            have hg := h.2 t ht
            unfold GoodTrain at hg ⊢
            rw [bookingsFor_of_filter
              (fun b => !(b.id == bid && b.user_id == uid)) rfl]
            dsimp only
            have htid : t.id = booking.train_id := by simpa using hid
            have hbmem' : booking ∈ bookingsFor db t.id := by
              refine List.mem_filter.mpr ⟨hbmem, ?_⟩
              simp [htid]
            have hlt := length_filter_lt_of_mem_not
              (fun b => !(b.id == bid && b.user_id == uid))
              (bookingsFor db t.id) booking hbmem' (by simp [hbp])
            refine ⟨?_, ?_, ?_⟩
            · exact hg.1.sublist ((List.filter_sublist _).map _)
            · have := hg.2.1
              omega
            · have := hg.2.2
              omega
          · simp only [hid, if_neg, Bool.false_eq_true]
            exact goodTrain_of_filter _ rfl (h.2 t ht)

/-- A freshly initialized database satisfies the invariant. -/
theorem initDB_inv {db : DB} (h : InitDB db) : Inv db := by
  obtain ⟨hb, hn, ht⟩ := h
  refine ⟨hn, fun t htm => ?_⟩
  unfold GoodTrain
  have hempty : bookingsFor db t.id = [] := by
    simp [bookingsFor, hb]
  rw [hempty]
  obtain ⟨ha, h0⟩ := ht t htm
  simp [ha, h0]

/-- Every operation preserves the invariant. -/
theorem inv_execOp (db : DB) (h : Inv db) (op : Op) : Inv (execOp db op) := by
  cases op with
  | book fault now tid uid name age gender => exact inv_book db h ..
  | cancel df uf bid uid => exact inv_cancel db h ..

/-- Operation sequences preserve the invariant. -/
theorem inv_execOps (db : DB) (h : Inv db) (ops : List Op) :
    Inv (execOps db ops) := by
  induction ops generalizing db with
  | nil => exact h
  | cons op ops ih => exact ih _ (inv_execOp db h op)

/-- Every state reachable through the allocator and the cancellation route
satisfies the invariant. -/
theorem reachable_inv {db : DB} (h : Reachable db) : Inv db := by
  obtain ⟨db0, ops, h0, rfl⟩ := h
  exact inv_execOps db0 (initDB_inv h0) ops

/-!
## Characterization of the allocator's branches
-/

/-- When no train row matches, `book_seat` falls through the NULL test, the
insert hits the foreign key, and the exception handler reports failure with
the error text and no state change. -/
theorem book_seat_noTrain (db : DB) (fault : Option String) (now tid uid : Nat)
    (name : String) (age : Int) (gender : String)
    (h : findTrain db tid = none) :
    book_seat fault now db tid uid name age gender =
      (⟨false, "Booking failed: " ++ fkViolationMsg, none, none⟩, db) := by
  unfold book_seat
  rw [h]

/-- When the locked train row shows no remaining seats, `book_seat` fails
with the fixed message and no state change. -/
theorem book_seat_noSeats (db : DB) (tr : TrainRow) (fault : Option String)
    (now tid uid : Nat) (name : String) (age : Int) (gender : String)
    (htr : findTrain db tid = some tr) (hav : tr.available_seats ≤ 0) :
    book_seat fault now db tid uid name age gender =
      (⟨false, "No seats available", none, none⟩, db) := by
  unfold book_seat
  rw [htr]
  simp only [if_pos hav]

/-- A storage error inside steps 3 to 5 reaches the exception handler: the
whole block is rolled back and the failure carries the error text. -/
theorem book_seat_fault (db : DB) (tr : TrainRow) (e : String)
    (now tid uid : Nat) (name : String) (age : Int) (gender : String)
    (htr : findTrain db tid = some tr) (hav : ¬ tr.available_seats ≤ 0) :
    book_seat (some e) now db tid uid name age gender =
      (⟨false, "Booking failed: " ++ e, none, none⟩, db) := by
  unfold book_seat
  rw [htr]
  simp only [if_neg hav]

/-- The fault-free success branch in full: the result and the new state. -/
theorem book_seat_success_spec (db : DB) (now tid uid : Nat) (name : String)
    (age : Int) (gender : String) (tr : TrainRow)
    (htr : findTrain db tid = some tr) (hav : 0 < tr.available_seats) :
    book_seat none now db tid uid name age gender =
      (⟨true, "Booking successful", some db.nextBookingId,
          some (maxSeat db tid + 1)⟩,
       { trains := db.trains.map (fun t =>
           if t.id == tid then
             { t with available_seats := t.available_seats - 1,
                      updated_at := now }
           else t),
         bookings := newBooking db tid uid name age gender :: db.bookings,
         nextBookingId := db.nextBookingId + 1 }) := by
  unfold book_seat
  rw [htr]
  simp only [if_neg (by omega : ¬ tr.available_seats ≤ 0)]

/-- `find?` over a map by an id-preserving function. -/
theorem findTrain_map_update (db : DB) (tid : Nat) (f : TrainRow → TrainRow)
    (bs : List Booking) (k : Nat) (hf : ∀ t, (f t).id = t.id) :
    findTrain ⟨db.trains.map f, bs, k⟩ tid = (findTrain db tid).map f := by
  unfold findTrain
  rw [List.find?_map]
  have hcomp : ((fun t : TrainRow => t.id == tid) ∘ f) =
      (fun t : TrainRow => t.id == tid) := by
    funext t
    simp [Function.comp, hf t]
  rw [hcomp]

theorem foldlMax_const (l : List Booking) (a : Int)
    (h : ∀ b ∈ l, b.seat_number ≤ a) :
    l.foldl (fun m b => max m b.seat_number) a = a := by
  induction l with
  | nil => rfl
  | cons c t ih =>
      simp only [List.foldl_cons]
      rw [max_eq_left (h c (List.mem_cons_self c t))]
      exact ih (fun b hb => h b (List.mem_cons_of_mem _ hb))

theorem maxSeat_nonneg (db : DB) (tid : Nat) : 0 ≤ maxSeat db tid :=
  foldlMax_init_le _ 0

/-- Prepending a booking whose seat number dominates the running maximum
makes that seat number the new maximum. -/
theorem maxSeat_of_cons (db1 db : DB) (nb : Booking) (tid : Nat)
    (hb : db1.bookings = nb :: db.bookings) (hnb : nb.train_id = tid)
    (hge : maxSeat db tid ≤ nb.seat_number) :
    maxSeat db1 tid = nb.seat_number := by
  have h0 : 0 ≤ nb.seat_number := le_trans (maxSeat_nonneg db tid) hge
  unfold maxSeat
  rw [bookingsFor_of_cons hb]
  simp only [hnb, beq_self_eq_true, if_pos, List.foldl_cons]
  rw [max_eq_right h0]
  exact foldlMax_const _ _ (fun b hb' => le_trans (seat_le_maxSeat hb') hge)

/-- One successful allocation step: the result fields, the decremented locked
row, id-distinctness, and the new running maximum. -/
theorem book_step (db : DB) (tr : TrainRow) (now tid uid : Nat) (name : String)
    (age : Int) (gender : String) (r : BookResult) (db' : DB)
    (heq : book_seat none now db tid uid name age gender = (r, db'))
    (hn : (db.trains.map TrainRow.id).Nodup)
    (htr : findTrain db tid = some tr) (hav : 0 < tr.available_seats) :
    r = ⟨true, "Booking successful", some db.nextBookingId,
        some (maxSeat db tid + 1)⟩ ∧
    findTrain db' tid =
      some { tr with available_seats := tr.available_seats - 1,
                     updated_at := now } ∧
    (db'.trains.map TrainRow.id).Nodup ∧
    maxSeat db' tid = maxSeat db tid + 1 := by
  rw [book_seat_success_spec db now tid uid name age gender tr htr hav] at heq
  injection heq with h1 h2
  subst h1
  subst h2
  have htid : tr.id = tid := by
    unfold findTrain at htr
    simpa using List.find?_some htr
  refine ⟨rfl, ?_, ?_, ?_⟩
  · rw [findTrain_map_update db tid _ _ _ (by
      intro t
      by_cases ht : t.id == tid <;> simp [ht])]
    rw [htr]
    simp [htid]
  · rw [map_id_of_pointwise]
    · exact hn
    · intro t
      by_cases ht : t.id == tid <;> simp [ht]
  · refine maxSeat_of_cons _ db (newBooking db tid uid name age gender) tid
      rfl rfl ?_
    unfold newBooking
    dsimp only
    omega

/-- The failure result of an exhausted train. -/
def noSeatsResult : BookResult := ⟨false, "No seats available", none, none⟩

/-- `n` back-to-back calls of the allocator for one train and one passenger
payload: the serialized interleaving the row lock enforces on `n` concurrent
callers. -/
def allocRun (now tid uid : Nat) (name : String) (age : Int) (gender : String) :
    Nat → DB → List BookResult × DB
  | 0, db => ([], db)
  | Nat.succ m, db =>
      let r := book_seat none now db tid uid name age gender
      let rest := allocRun now tid uid name age gender m r.2
      (r.1 :: rest.1, rest.2)

theorem countP_replicate_of_neg {α : Type} (p : α → Bool) (a : α) (m : Nat)
    (h : p a = false) : (List.replicate m a).countP p = 0 := by
  induction m with
  | zero => rfl
  | succ m ih =>
      rw [List.replicate_succ, List.countP_cons, h]
      simpa using ih

theorem countP_replicate_of_pos {α : Type} (p : α → Bool) (a : α) (m : Nat)
    (h : p a = true) : (List.replicate m a).countP p = m := by
  induction m with
  | zero => rfl
  | succ m ih =>
      rw [List.replicate_succ, List.countP_cons, h]
      simpa using ih

/-- An exhausted train turns every remaining call of the run into the fixed
"No seats available" failure, with no state change. -/
theorem allocRun_exhausted (now tid uid : Nat) (name : String) (age : Int)
    (gender : String) (m : Nat) (db : DB) (tr : TrainRow)
    (htr : findTrain db tid = some tr) (hav : tr.available_seats ≤ 0) :
    allocRun now tid uid name age gender m db =
      (List.replicate m noSeatsResult, db) := by
  induction m with
  | zero => rfl
  | succ m ih =>
      rw [allocRun]
      rw [book_seat_noSeats db tr none now tid uid name age gender htr hav]
      simp only [ih, List.replicate_succ]
      rfl

theorem filterMap_replicate_none {α β : Type} (f : α → Option β) (a : α)
    (m : Nat) (h : f a = none) : (List.replicate m a).filterMap f = [] := by
  induction m with
  | zero => rfl
  | succ m ih =>
      rw [List.replicate_succ, List.filterMap_cons, h]
      exact ih

theorem allocRun_succ (now tid uid : Nat) (name : String) (age : Int)
    (gender : String) (m : Nat) (db : DB) :
    allocRun now tid uid name age gender (m + 1) db =
      ((book_seat none now db tid uid name age gender).1 ::
          (allocRun now tid uid name age gender m
            (book_seat none now db tid uid name age gender).2).1,
        (allocRun now tid uid name age gender m
          (book_seat none now db tid uid name age gender).2).2) := rfl

/-- The full behaviour of `n + k` serialized allocator calls against a train
with `n` seats left: exactly `n` succeed — issuing the consecutive fresh seat
numbers `maxSeat + 1, ..., maxSeat + n`, so no two callers ever compute the
same number — the remaining `k` calls all fail with "No seats available", and
the train's counter ends at zero. -/
theorem allocRun_spec (now tid uid : Nat) (name : String) (age : Int)
    (gender : String) :
    ∀ (n k : Nat) (db : DB) (tr : TrainRow),
      (db.trains.map TrainRow.id).Nodup →
      findTrain db tid = some tr →
      tr.available_seats = (n : Int) →
      (allocRun now tid uid name age gender (n + k) db).1.countP
          (fun r => r.success) = n ∧
      (allocRun now tid uid name age gender (n + k) db).1.countP
          (fun r => !r.success) = k ∧
      (∀ r ∈ (allocRun now tid uid name age gender (n + k) db).1,
        r.success = false → r = noSeatsResult) ∧
      (allocRun now tid uid name age gender (n + k) db).1.filterMap
          BookResult.seat_number =
        List.map (fun i : Nat => maxSeat db tid + 1 + (i : Int))
          (List.range n) ∧
      ∃ tr', findTrain (allocRun now tid uid name age gender (n + k) db).2 tid =
          some tr' ∧ tr'.available_seats = 0 := by
  intro n
  induction n with
  | zero =>
      intro k db tr hn htr hav
      rw [Nat.zero_add]
      rw [allocRun_exhausted now tid uid name age gender k db tr htr (by omega)]
      refine ⟨?_, ?_, ?_, ?_, tr, htr, hav⟩
      · exact countP_replicate_of_neg _ _ _ rfl
      · exact countP_replicate_of_pos _ _ _ rfl
      · intro r hr _
        exact List.eq_of_mem_replicate hr
      · rw [filterMap_replicate_none _ _ _ rfl]
        simp
  | succ n ih =>
      intro k db tr hn htr hav
      have hpos : 0 < tr.available_seats := by omega
      obtain ⟨hr1, hfind', hn', hmax'⟩ :=
        book_step db tr now tid uid name age gender
          (book_seat none now db tid uid name age gender).1
          (book_seat none now db tid uid name age gender).2 rfl hn htr hpos
      have hav' : ({ tr with available_seats := tr.available_seats - 1,
                             updated_at := now } : TrainRow).available_seats
          = (n : Int) := by
        dsimp only
        push_cast at hav ⊢
        omega
      obtain ⟨ihs, ihf, ihmsg, ihseats, tr', ihfind, ihz⟩ :=
        ih k (book_seat none now db tid uid name age gender).2
          ({ tr with available_seats := tr.available_seats - 1,
                     updated_at := now }) hn' hfind' hav'
      rw [show n + 1 + k = (n + k) + 1 by omega]
      rw [allocRun_succ]
      refine ⟨?_, ?_, ?_, ?_, tr', ihfind, ihz⟩
      · rw [List.countP_cons, ihs, hr1]
        rfl
      · rw [List.countP_cons, ihf, hr1]
        rfl
      · intro r hr hrf
        rcases List.mem_cons.mp hr with h | h
        · rw [h, hr1] at hrf
          cases hrf
        · exact ihmsg r h hrf
      · rw [hr1]
        rw [List.filterMap_cons]
        dsimp only
        rw [ihseats, hmax']
        rw [List.range_succ_eq_map, List.map_cons, List.map_map]
        simp only [Nat.cast_zero, add_zero]
        refine congrArg _ ?_
        refine List.map_congr_left (fun i _ => ?_)
        simp only [Function.comp]
        push_cast
        ring

/-!
## Sorting lemmas for the search route
-/

theorem mem_insertByDep {u t : TrainRow} {l : List TrainRow} :
    u ∈ insertByDep t l ↔ u = t ∨ u ∈ l := by
  induction l with
  | nil => simp [insertByDep]
  | cons v vs ih =>
      rw [insertByDep]
      by_cases h : t.departure_time ≤ v.departure_time
      · simp only [if_pos h, List.mem_cons]
      · simp only [if_neg h, List.mem_cons, ih]
        tauto

theorem pairwise_insertByDep {t : TrainRow} {l : List TrainRow}
    (h : l.Pairwise (fun a b => a.departure_time ≤ b.departure_time)) :
    (insertByDep t l).Pairwise
      (fun a b => a.departure_time ≤ b.departure_time) := by
  induction l with
  | nil => simp [insertByDep]
  | cons v vs ih =>
      rw [insertByDep]
      obtain ⟨hv, hvs⟩ := List.pairwise_cons.mp h
      by_cases hle : t.departure_time ≤ v.departure_time
      · rw [if_pos hle]
        refine List.pairwise_cons.mpr ⟨?_, h⟩
        intro x hx
        rcases List.mem_cons.mp hx with rfl | hx
        · exact hle
        · exact le_trans hle (hv x hx)
      · rw [if_neg hle]
        refine List.pairwise_cons.mpr ⟨?_, ih hvs⟩
        intro x hx
        rcases mem_insertByDep.mp hx with rfl | hx
        · omega
        · exact hv x hx

theorem sortByDep_sorted (l : List TrainRow) :
    (sortByDep l).Pairwise (fun a b => a.departure_time ≤ b.departure_time) := by
  induction l with
  | nil => simp [sortByDep]
  | cons t ts ih =>
      rw [sortByDep]
      exact pairwise_insertByDep ih

theorem mem_sortByDep {u : TrainRow} {l : List TrainRow} :
    u ∈ sortByDep l ↔ u ∈ l := by
  induction l with
  | nil => simp [sortByDep]
  | cons t ts ih =>
      rw [sortByDep, mem_insertByDep]
      simp [ih]

/-!
## Sample data for concrete runs

A two-seat variant of the migration's first seed train, and a sold-out
train. -/

def sampleTrain : TrainRow :=
  { id := 0, train_number := "12345", train_name := "Rajdhani Express",
    source := "Delhi", destination := "Mumbai", total_seats := 2,
    available_seats := 2, departure_time := 360, arrival_time := 1200,
    journey_date := 15, price := 2500, updated_at := 0 }

def fullTrain : TrainRow :=
  { id := 1, train_number := "67890", train_name := "Shatabdi Express",
    source := "Delhi", destination := "Chandigarh", total_seats := 2,
    available_seats := 0, departure_time := 420, arrival_time := 660,
    journey_date := 15, price := 800, updated_at := 0 }

def sampleDB : DB :=
  { trains := [sampleTrain], bookings := [], nextBookingId := 0 }

def fullDB : DB :=
  { trains := [fullTrain], bookings := [], nextBookingId := 0 }

/-!
## Booking status: every row the system ever holds is a confirmed one
-/

theorem confirmed_book (db : DB)
    (h : ∀ b ∈ db.bookings, b.booking_status = "confirmed")
    (fault : Option String) (now tid uid : Nat) (name : String) (age : Int)
    (gender : String) :
    ∀ b ∈ (book_seat fault now db tid uid name age gender).2.bookings,
      b.booking_status = "confirmed" := by
  unfold book_seat
  split
  · exact h
  next tr heq =>
    split
    · exact h
    next hav =>
      split
      · exact h
      next =>
        dsimp only
        intro b hb
        rcases List.mem_cons.mp hb with rfl | hb
        · rfl
        · exact h b hb

theorem confirmed_cancel (db : DB)
    (h : ∀ b ∈ db.bookings, b.booking_status = "confirmed")
    (df uf : Bool) (bid uid : Nat) :
    ∀ b ∈ (cancelBooking df uf db bid uid).2.bookings,
      b.booking_status = "confirmed" := by
  unfold cancelBooking
  split
  · exact h
  next booking hfind =>
    split
    · exact h
    next =>
      dsimp only
      split
      · intro b hb
        exact h b (List.mem_filter.mp hb).1
      next =>
        intro b hb
        exact h b (List.mem_filter.mp hb).1

theorem confirmed_execOps (db : DB)
    (h : ∀ b ∈ db.bookings, b.booking_status = "confirmed") (ops : List Op) :
    ∀ b ∈ (execOps db ops).bookings, b.booking_status = "confirmed" := by
  induction ops generalizing db with
  | nil => exact h
  | cons op ops ih =>
      refine ih (execOp db op) ?_
      cases op with
      | book fault now tid uid name age gender =>
          exact confirmed_book db h fault now tid uid name age gender
      | cancel df uf bid uid => exact confirmed_cancel db h df uf bid uid

theorem reachable_confirmed {db : DB} (h : Reachable db) :
    ∀ b ∈ db.bookings, b.booking_status = "confirmed" := by
  obtain ⟨db0, ops, ⟨hb0, _, _⟩, rfl⟩ := h
  refine confirmed_execOps db0 ?_ ops
  rw [hb0]
  intro b hb
  cases hb

/-- Inversion: a call that reported success passed the existence and
availability checks fault-free and took the success branch. -/
theorem book_seat_success_inv (db : DB) (now tid uid : Nat) (name : String)
    (age : Int) (gender : String) (r : BookResult) (db' : DB)
    (heq : book_seat none now db tid uid name age gender = (r, db'))
    (hs : r.success = true) :
    ∃ tr, findTrain db tid = some tr ∧ 0 < tr.available_seats ∧
      r = ⟨true, "Booking successful", some db.nextBookingId,
          some (maxSeat db tid + 1)⟩ ∧
      db' = { trains := db.trains.map (fun t =>
                if t.id == tid then
                  { t with available_seats := t.available_seats - 1,
                           updated_at := now }
                else t),
              bookings := newBooking db tid uid name age gender :: db.bookings,
              nextBookingId := db.nextBookingId + 1 } := by
  cases hf : findTrain db tid with
  | none =>
      rw [book_seat_noTrain db none now tid uid name age gender hf] at heq
      injection heq with h1 h2
      rw [← h1] at hs
      simp at hs
  | some tr =>
      by_cases hav : tr.available_seats ≤ 0
      · rw [book_seat_noSeats db tr none now tid uid name age gender hf hav]
          at heq
        injection heq with h1 h2
        rw [← h1] at hs
        simp at hs
      · have hpos : 0 < tr.available_seats := by omega
        rw [book_seat_success_spec db now tid uid name age gender tr hf hpos]
          at heq
        injection heq with h1 h2
        exact ⟨tr, rfl, hpos, h1.symm, h2.symm⟩

/-!
## The claims
-/

/-- C1: Seat uniqueness invariant — in every state reachable through the
allocator and the cancellation route (the two operations of the claim), every
booking row held is live with status "confirmed"; for every train the seat
numbers of its bookings are pairwise distinct, and their number never exceeds
the train's `total_seats`; this holds after every prefix of operations, i.e.
every operation preserves it. -/
theorem C1_seat_uniqueness {db : DB} (h : Reachable db) :
    (∀ b ∈ db.bookings, b.booking_status = "confirmed") ∧
    ∀ t ∈ db.trains,
      ((bookingsFor db t.id).map Booking.seat_number).Nodup ∧
        ((bookingsFor db t.id).length : Int) ≤ t.total_seats := by
  refine ⟨reachable_confirmed h, ?_⟩
  intro t ht
  obtain ⟨hs, hc, ha⟩ := (reachable_inv h).2 t ht
  exact ⟨hs, by omega⟩

/-- A concrete run: two bookings, a cancellation, a rebooking. -/
def c1ops : List Op :=
  [Op.book none 1 0 7 "Asha" 30 "F", Op.book none 2 0 8 "Ravi" 41 "M",
   Op.cancel false false 0 7, Op.book none 3 0 9 "Meera" 22 "F"]

theorem C1_seat_uniqueness_witness :
    (∀ b ∈ (execOps sampleDB c1ops).bookings,
      b.booking_status = "confirmed") ∧
    ∀ t ∈ (execOps sampleDB c1ops).trains,
      ((bookingsFor (execOps sampleDB c1ops) t.id).map
          Booking.seat_number).Nodup ∧
        ((bookingsFor (execOps sampleDB c1ops) t.id).length : Int) ≤
          t.total_seats :=
  C1_seat_uniqueness ⟨sampleDB, c1ops, by decide, rfl⟩

/-- C2 counterexample: seat number 1 is issued on the sample train, the
booking holding it is cancelled (a hard delete), and the very next successful
allocation issues seat number 1 again — a seat number, once issued, can be
reissued, contradicting the claim. -/
theorem C2_counterexample :
    (book_seat none 1 sampleDB 0 7 "Asha" 30 "F").1.success = true ∧
    (book_seat none 1 sampleDB 0 7 "Asha" 30 "F").1.seat_number = some 1 ∧
    (book_seat none 3
        (cancelBooking false false
          (book_seat none 1 sampleDB 0 7 "Asha" 30 "F").2 0 7).2
        0 8 "Ravi" 41 "M").1.success = true ∧
    (book_seat none 3
        (cancelBooking false false
          (book_seat none 1 sampleDB 0 7 "Asha" 30 "F").2 0 7).2
        0 8 "Ravi" 41 "M").1.seat_number = some 1 := by
  decide

/-- C2 amended: the seat number issued by a successful allocation strictly
exceeds the maximum seat number currently booked on the train (hence every
live seat number), so successive successful allocations with no intervening
cancellation issue strictly increasing numbers; but cancelling the
highest-numbered booking removes it from the MAX computation and lets its
number be reissued (the counterexample). -/
theorem C2_monotonic_amended (db : DB) (now now2 tid uid uid2 : Nat)
    (name name2 : String) (age age2 : Int) (gender gender2 : String)
    (r1 : BookResult) (db1 : DB)
    (heq1 : book_seat none now db tid uid name age gender = (r1, db1))
    (hs1 : r1.success = true) (s1 : Int) (hseat1 : r1.seat_number = some s1)
    (r2 : BookResult) (db2 : DB)
    (heq2 : book_seat none now2 db1 tid uid2 name2 age2 gender2 = (r2, db2))
    (hs2 : r2.success = true) (s2 : Int) (hseat2 : r2.seat_number = some s2) :
    maxSeat db tid < s1 ∧ s1 < s2 ∧
      ∀ b ∈ bookingsFor db tid, b.seat_number < s1 := by
  obtain ⟨tr, hf1, hp1, hr1, hdb1⟩ :=
    book_seat_success_inv db now tid uid name age gender r1 db1 heq1 hs1
  obtain ⟨tr2, hf2, hp2, hr2, hdb2⟩ :=
    book_seat_success_inv db1 now2 tid uid2 name2 age2 gender2 r2 db2 heq2 hs2
  rw [hr1] at hseat1
  rw [hr2] at hseat2
  have hs1eq : s1 = maxSeat db tid + 1 := by
    simpa using hseat1.symm
  have hs2eq : s2 = maxSeat db1 tid + 1 := by
    simpa using hseat2.symm
  have hmem : newBooking db tid uid name age gender ∈ bookingsFor db1 tid := by
    rw [bookingsFor_of_cons (by rw [hdb1])]
    simp [newBooking]
  have hle : (newBooking db tid uid name age gender).seat_number ≤
      maxSeat db1 tid := seat_le_maxSeat hmem
  have hnb : (newBooking db tid uid name age gender).seat_number =
      maxSeat db tid + 1 := rfl
  refine ⟨by omega, by omega, ?_⟩
  intro b hb
  have := seat_le_maxSeat hb
  omega

theorem C2_monotonic_amended_witness :
    maxSeat sampleDB 0 < 1 ∧ (1 : Int) < 2 := by
  have h := C2_monotonic_amended sampleDB 1 2 0 7 8 "Asha" "Ravi" 30 41
    "F" "M"
    (book_seat none 1 sampleDB 0 7 "Asha" 30 "F").1
    (book_seat none 1 sampleDB 0 7 "Asha" 30 "F").2 rfl (by decide)
    1 (by decide)
    (book_seat none 2 (book_seat none 1 sampleDB 0 7 "Asha" 30 "F").2
      0 8 "Ravi" 41 "M").1
    (book_seat none 2 (book_seat none 1 sampleDB 0 7 "Asha" 30 "F").2
      0 8 "Ravi" 41 "M").2 rfl (by decide)
    2 (by decide)
  exact ⟨h.1, h.2.1⟩

/-- C3: Success postcondition — a fault-free call on an existing train with a
free seat returns success carrying the fresh booking id and the seat number
`MAX + 1` (`1` when the train has no bookings), prepends exactly one booking
row with status "confirmed" and the supplied passenger details, and rewrites
the train row with `available_seats` decremented by one and `updated_at`
refreshed to the call's clock. -/
theorem C3_success_postcondition (db : DB) (now tid uid : Nat) (name : String)
    (age : Int) (gender : String) (tr : TrainRow)
    (htr : findTrain db tid = some tr) (hav : 0 < tr.available_seats) :
    (book_seat none now db tid uid name age gender).1 =
      ⟨true, "Booking successful", some db.nextBookingId,
        some (maxSeat db tid + 1)⟩ ∧
    (bookingsFor db tid = [] →
      (book_seat none now db tid uid name age gender).1.seat_number =
        some 1) ∧
    (book_seat none now db tid uid name age gender).2.bookings =
      newBooking db tid uid name age gender :: db.bookings ∧
    newBooking db tid uid name age gender =
      { id := db.nextBookingId, user_id := uid, train_id := tid,
        seat_number := maxSeat db tid + 1, booking_status := "confirmed",
        passenger_name := name, passenger_age := age,
        passenger_gender := gender } ∧
    findTrain (book_seat none now db tid uid name age gender).2 tid =
      some { tr with available_seats := tr.available_seats - 1,
                     updated_at := now } := by
  have hspec := book_seat_success_spec db now tid uid name age gender tr
    htr hav
  rw [hspec]
  refine ⟨rfl, ?_, rfl, rfl, ?_⟩
  · intro hempty
    have hmz : maxSeat db tid = 0 := by
      unfold maxSeat
      rw [hempty]
      rfl
    simp [hmz]
  · have htid : tr.id = tid := by
      unfold findTrain at htr
      simpa using List.find?_some htr
    rw [findTrain_map_update db tid _ _ _ (by
      intro t
      by_cases ht : t.id == tid <;> simp [ht])]
    rw [htr]
    simp [htid]

theorem C3_success_postcondition_witness :
    0 < sampleTrain.available_seats ∧
    ((book_seat none 1 sampleDB 0 7 "Asha" 30 "F").1 =
      ⟨true, "Booking successful", some sampleDB.nextBookingId,
        some (maxSeat sampleDB 0 + 1)⟩ ∧
    (bookingsFor sampleDB 0 = [] →
      (book_seat none 1 sampleDB 0 7 "Asha" 30 "F").1.seat_number =
        some 1) ∧
    (book_seat none 1 sampleDB 0 7 "Asha" 30 "F").2.bookings =
      newBooking sampleDB 0 7 "Asha" 30 "F" :: sampleDB.bookings ∧
    newBooking sampleDB 0 7 "Asha" 30 "F" =
      { id := sampleDB.nextBookingId, user_id := 7, train_id := 0,
        seat_number := maxSeat sampleDB 0 + 1, booking_status := "confirmed",
        passenger_name := "Asha", passenger_age := 30,
        passenger_gender := "F" } ∧
    findTrain (book_seat none 1 sampleDB 0 7 "Asha" 30 "F").2 0 =
      some { sampleTrain with
               available_seats := sampleTrain.available_seats - 1,
               updated_at := 1 }) :=
  ⟨by decide,
   C3_success_postcondition sampleDB 1 0 7 "Asha" 30 "F" sampleTrain
     (by decide) (by decide)⟩

/-- C4 counterexample: calling the allocator with a train id that references
no train does fail without mutating state, but not with a "not found" result:
there is no existence check, the NULL availability test falls through, and the
foreign-key violation surfaces through the exception handler as
"Booking failed: ...", a message that does not even contain "not found". -/
theorem C4_counterexample :
    (book_seat none 1 sampleDB 1 7 "Asha" 30 "F").1.success = false ∧
    (book_seat none 1 sampleDB 1 7 "Asha" 30 "F").1.message =
      "Booking failed: " ++ fkViolationMsg ∧
    ciContains (book_seat none 1 sampleDB 1 7 "Asha" 30 "F").1.message
      "not found" = false ∧
    (book_seat none 1 sampleDB 1 7 "Asha" 30 "F").2 = sampleDB := by
  decide

/-- C4 amended: under the lock the allocator re-checks availability only.  A
call whose train id references no train fails — via the insert's foreign-key
violation and the exception handler — with a "Booking failed: ..." result
rather than an explicit "not found"; a call on an existing train with
`available_seats <= 0` fails with "No seats available"; in both failure cases
no state is mutated. -/
theorem C4_precondition_failures_amended (db : DB) (fault : Option String)
    (now tid uid : Nat) (name : String) (age : Int) (gender : String) :
    (findTrain db tid = none →
      book_seat fault now db tid uid name age gender =
        (⟨false, "Booking failed: " ++ fkViolationMsg, none, none⟩, db)) ∧
    (∀ tr, findTrain db tid = some tr → tr.available_seats ≤ 0 →
      book_seat fault now db tid uid name age gender =
        (⟨false, "No seats available", none, none⟩, db)) :=
  ⟨fun h => book_seat_noTrain db fault now tid uid name age gender h,
   fun tr htr hav =>
     book_seat_noSeats db tr fault now tid uid name age gender htr hav⟩

theorem C4_precondition_failures_amended_witness :
    book_seat none 1 sampleDB 1 7 "Asha" 30 "F" =
      (⟨false, "Booking failed: " ++ fkViolationMsg, none, none⟩,
        sampleDB) ∧
    book_seat none 1 fullDB 1 7 "Asha" 30 "F" =
      (⟨false, "No seats available", none, none⟩, fullDB) :=
  ⟨(C4_precondition_failures_amended sampleDB none 1 1 7 "Asha" 30 "F").1
     (by decide),
   (C4_precondition_failures_amended fullDB none 1 1 7 "Asha" 30 "F").2
     fullTrain (by decide) (by decide)⟩

/-- C5: Atomicity on error — an error injected into steps 3 to 5 (the seat
computation, the insert, the decrement) makes the whole unit of work roll
back: the call returns a structured failure carrying the underlying error
text, the database is exactly the pre-call state, and — `book_seat` being a
total function into results — nothing is raised upward. -/
theorem C5_atomicity_on_error (db : DB) (e : String) (now tid uid : Nat)
    (name : String) (age : Int) (gender : String) (tr : TrainRow)
    (htr : findTrain db tid = some tr) (hav : 0 < tr.available_seats) :
    book_seat (some e) now db tid uid name age gender =
      (⟨false, "Booking failed: " ++ e, none, none⟩, db) :=
  book_seat_fault db tr e now tid uid name age gender htr (by omega)

theorem C5_atomicity_on_error_witness :
    book_seat (some "deadlock detected") 1 sampleDB 0 7 "Asha" 30 "F" =
      (⟨false, "Booking failed: " ++ "deadlock detected", none, none⟩,
        sampleDB) :=
  C5_atomicity_on_error sampleDB "deadlock detected" 1 0 7 "Asha" 30 "F"
    sampleTrain (by decide) (by decide)

/-- C6: the failing input evaluated — after booking seat 1 on the sample
train (`available_seats` drops to 1), cancelling that booking while the
separate trains-update call fails (`updFault`) deletes the booking row, skips
the increment, and still answers 200 "Booking cancelled successfully": the
route performs delete and increment as two uncoupled calls and even reports
success when the increment is lost, contradicting the claimed atomic
coupling. -/
theorem C6_cancel_not_atomic :
    (cancelBooking false true
        (book_seat none 1 sampleDB 0 7 "Asha" 30 "F").2 0 7).1 =
      ⟨200, "Booking cancelled successfully"⟩ ∧
    getBooking (cancelBooking false true
        (book_seat none 1 sampleDB 0 7 "Asha" 30 "F").2 0 7).2 0 7 = none ∧
    (findTrain (cancelBooking false true
        (book_seat none 1 sampleDB 0 7 "Asha" 30 "F").2 0 7).2 0).map
      TrainRow.available_seats = some 1 ∧
    (findTrain (book_seat none 1 sampleDB 0 7 "Asha" 30 "F").2 0).map
      TrainRow.available_seats = some 1 := by
  decide

/-- C7 counterexample: the admin route `PUT /trains/:id` writes `req.body`
through unchecked, so one admin update sets `available_seats` to 5 on the
two-seat sample train — `available_seats <= total_seats` is violated and the
Seat Allocator is not the sole writer of the counter. -/
theorem C7_counterexample :
    findTrain (updateTrain sampleDB 0
        { available_seats := some 5 }) 0 =
      some { sampleTrain with available_seats := 5 } ∧
    ¬ (({ sampleTrain with available_seats := 5 } : TrainRow).available_seats
        ≤ ({ sampleTrain with available_seats := 5 } : TrainRow).total_seats)
    := by
  decide

/-- C7 amended: in every state reachable through the allocator and the
cancellation route alone, `0 <= available_seats <= total_seats` holds for
every train and the allocator never drives the counter below zero; the
sole-writer part of the claim fails, because the admin update route
(`PUT /trains/:id`, an unvalidated passthrough of the request body) can also
write `available_seats`, to values outside the bounds (the
counterexample). -/
theorem C7_bounds_amended {db : DB} (h : Reachable db) :
    ∀ t ∈ db.trains,
      0 ≤ t.available_seats ∧ t.available_seats ≤ t.total_seats := by
  intro t ht
  obtain ⟨hs, hc, ha⟩ := (reachable_inv h).2 t ht
  refine ⟨ha, ?_⟩
  have hlen : (0 : Int) ≤ ((bookingsFor db t.id).length : Int) :=
    Int.natCast_nonneg _
  omega

/-- A concrete run for the bounds: a booking, a faulty cancellation (the
increment lost), a second booking. -/
def c7ops : List Op :=
  [Op.book none 1 0 7 "Asha" 30 "F", Op.cancel false true 0 7,
   Op.book none 2 0 8 "Ravi" 41 "M"]

theorem C7_bounds_amended_witness :
    0 ≤ sampleTrain.total_seats ∧
    ∀ t ∈ (execOps sampleDB c7ops).trains,
      0 ≤ t.available_seats ∧ t.available_seats ≤ t.total_seats :=
  ⟨by decide, C7_bounds_amended ⟨sampleDB, c7ops, by decide, rfl⟩⟩

/-- C8: No double allocation — `n + k` calls of the allocator against a train
with `n` seats left, executed in the order the per-train `FOR UPDATE` row
lock serializes them, produce exactly `n` successes and `k` failures, every
failure being the "No seats available" result; the successes are issued the
pairwise distinct consecutive seat numbers `maxSeat + 1, ..., maxSeat + n`,
so no two callers ever compute the same next seat number; and the train's
counter ends at exactly zero. -/
theorem C8_no_double_allocation (db : DB) (tr : TrainRow) (now tid uid : Nat)
    (name : String) (age : Int) (gender : String) (n k : Nat) (_hk : 1 ≤ k)
    (hn : (db.trains.map TrainRow.id).Nodup)
    (htr : findTrain db tid = some tr)
    (hav : tr.available_seats = (n : Int)) :
    (allocRun now tid uid name age gender (n + k) db).1.countP
        (fun r => r.success) = n ∧
    (allocRun now tid uid name age gender (n + k) db).1.countP
        (fun r => !r.success) = k ∧
    (∀ r ∈ (allocRun now tid uid name age gender (n + k) db).1,
      r.success = false → r = noSeatsResult) ∧
    (allocRun now tid uid name age gender (n + k) db).1.filterMap
        BookResult.seat_number =
      List.map (fun i : Nat => maxSeat db tid + 1 + (i : Int))
        (List.range n) ∧
    ∃ tr', findTrain (allocRun now tid uid name age gender (n + k) db).2 tid =
        some tr' ∧ tr'.available_seats = 0 :=
  allocRun_spec now tid uid name age gender n k db tr hn htr hav

theorem C8_no_double_allocation_witness :
    (allocRun 1 0 7 "Asha" 30 "F" (2 + 1) sampleDB).1.countP
        (fun r => r.success) = 2 ∧
    (allocRun 1 0 7 "Asha" 30 "F" (2 + 1) sampleDB).1.countP
        (fun r => !r.success) = 1 ∧
    (∀ r ∈ (allocRun 1 0 7 "Asha" 30 "F" (2 + 1) sampleDB).1,
      r.success = false → r = noSeatsResult) ∧
    (allocRun 1 0 7 "Asha" 30 "F" (2 + 1) sampleDB).1.filterMap
        BookResult.seat_number =
      List.map (fun i : Nat => maxSeat sampleDB 0 + 1 + (i : Int))
        (List.range 2) ∧
    ∃ tr', findTrain (allocRun 1 0 7 "Asha" 30 "F" (2 + 1) sampleDB).2 0 =
        some tr' ∧ tr'.available_seats = 0 :=
  C8_no_double_allocation sampleDB sampleTrain 1 0 7 "Asha" 30 "F" 2 1
    (by decide) (by decide) (by decide) (by decide)

/-- C9: Search visibility — whenever the search route answers a result list,
every returned train comes from the table, has `available_seats` strictly
positive (a sold-out train is never returned), matches the requested source
and destination case-insensitively as substrings, matches the requested date
when one was given, and the list is ordered by `departure_time` ascending. -/
theorem C9_search_filter (db : DB) (q : SearchQuery) (ts : List TrainRow)
    (h : searchTrains db q = Except.ok ts) :
    (∀ t ∈ ts, t ∈ db.trains ∧ 0 < t.available_seats ∧
      ciContains t.source q.source = true ∧
      ciContains t.destination q.destination = true ∧
      ∀ d, q.date = some d → t.journey_date = d) ∧
    ts.Pairwise (fun a b => a.departure_time ≤ b.departure_time) := by
  unfold searchTrains at h
  by_cases hg : (q.source.isEmpty || q.destination.isEmpty) = true
  · rw [if_pos hg] at h
    exact Except.noConfusion h
  · rw [if_neg hg] at h
    cases hd : q.date with
    | none =>
        simp only [hd] at h
        injection h with h
        subst h
        refine ⟨?_, sortByDep_sorted _⟩
        intro t ht
        have hm := List.mem_filter.mp (mem_sortByDep.mp ht)
        have hp := hm.2
        simp only [Bool.and_eq_true, decide_eq_true_eq] at hp
        refine ⟨hm.1, hp.2, hp.1.1, hp.1.2, ?_⟩
        intro d hd2
        exact Option.noConfusion hd2
    | some d0 =>
        simp only [hd] at h
        injection h with h
        subst h
        refine ⟨?_, sortByDep_sorted _⟩
        intro t ht
        have hm := List.mem_filter.mp (mem_sortByDep.mp ht)
        have hm2 := List.mem_filter.mp hm.1
        have hp := hm2.2
        simp only [Bool.and_eq_true, decide_eq_true_eq] at hp
        refine ⟨hm2.1, hp.2, hp.1.1, hp.1.2, ?_⟩
        intro d hd2
        have : d0 = d := Option.some.inj hd2
        subst this
        simpa using hm.2

theorem C9_search_filter_witness :
    (∀ t ∈ [sampleTrain], t ∈ sampleDB.trains ∧ 0 < t.available_seats ∧
      ciContains t.source "del" = true ∧
      ciContains t.destination "mum" = true ∧
      ∀ d, (none : Option Nat) = some d → t.journey_date = d) ∧
    List.Pairwise (fun a b => a.departure_time ≤ b.departure_time)
      [sampleTrain] :=
  C9_search_filter sampleDB ⟨"del", "mum", none⟩ [sampleTrain] rfl

/-- C10: Falsy-field validation — whenever any of the four body fields of
`POST /bookings` is JavaScript-falsy (`undefined`, `null`, `0`, or the empty
string), the gateway answers 400 "All passenger details are required" and the
allocator RPC is never reached; in particular a passenger age of 0 is always
rejected. -/
theorem C10_falsy_validation
    (train_id passenger_name passenger_age passenger_gender : JSVal)
    (h : falsy train_id = true ∨ falsy passenger_name = true ∨
      falsy passenger_age = true ∨ falsy passenger_gender = true) :
    postBookingGate train_id passenger_name passenger_age passenger_gender =
      GateOutcome.rejected 400 "All passenger details are required" := by
  unfold postBookingGate
  have hc : (falsy train_id || falsy passenger_name || falsy passenger_age ||
      falsy passenger_gender) = true := by
    rcases h with h | h | h | h <;> simp [h]
  simp [hc]

theorem C10_falsy_validation_witness :
    falsy (JSVal.vnum 0) = true ∧
    postBookingGate (JSVal.vstr "train-1") (JSVal.vstr "Asha")
        (JSVal.vnum 0) (JSVal.vstr "F") =
      GateOutcome.rejected 400 "All passenger details are required" :=
  ⟨by decide,
   C10_falsy_validation (JSVal.vstr "train-1") (JSVal.vstr "Asha")
     (JSVal.vnum 0) (JSVal.vstr "F")
     (Or.inr (Or.inr (Or.inl (by decide))))⟩

end Irctc
